import Mathlib

/-!
Verification of the recommendation engine of the MovieWatchlist repository.

The engine is the `api_recommendations` handler in `app_core/api.py`
(lines 225-364).  We give a shallow embedding of that handler and of the
data it consumes:

* `Movie` embeds the SQLAlchemy `Movie` model (`models.py`): the fields the
  handler reads, with `genres` flattened to the list of TMDB genre ids
  (`[g.tmdb_id for g in m.genres]`).
* `Candidate` embeds the dictionaries produced by
  `movie_api._map_results_full` and consumed by the handler: `tmdb_id` is
  kept in its stringified form (the handler works with `str(it.get("tmdb_id"))`),
  `year` is the 4-character prefix of the release date (a plain string,
  possibly empty), `vote_average`/`vote_count` are optional because the
  upstream JSON may omit them (the handler applies `or 0` defaults).
* The catalog client `mapi.discover_by_genres_window` is an oracle
  `resp : Nat → Int → Except Unit (List Candidate)`: `resp i p` is the
  outcome of the page-`p` fetch issued for the `i`-th seed; `.error` models
  the call raising, which the handler's `try/except` turns into `[]`.
* `math.log1p` is an abstracted pure function `log1p : ℚ → ℚ`; every
  property proved here holds for an arbitrary `log1p`.  Python floats are
  modelled by exact rationals, so the decimal weight constants are exact.
* The Python dict `pool` is an insertion-ordered association list;
  `pool[tid] = it` updates the value in place when the key is present
  (keeping its position) and appends otherwise, exactly as a Python dict.
* `sorted(..., reverse=True)` (Timsort, stable) is modelled by a stable
  insertion sort on the descending score order.

The handler performs no database write (`db.session` is never touched in
lines 225-364; every interaction is a `Movie.query` read), so the embedding
threads the database through and returns it as the final component.
-/

/-- A row of the `movie` table restricted to the columns the handler reads.
`genres` is the list of TMDB genre ids of the attached `Genre` rows. -/
structure Movie where
  title : String
  year : Option String
  external_id : Option String
  source : Option String
  personal_rating : Option Int
  watched : Bool
  owner : Option String
  genres : List Int
deriving Repr, DecidableEq

/-- A candidate dictionary as built by `movie_api._map_results_full`.
`tmdb_id` is the stringified id (the handler computes `str(it.get("tmdb_id"))`). -/
structure Candidate where
  tmdb_id : String
  title : String
  year : String
  poster_path : Option String
  vote_average : Option ℚ
  vote_count : Option Int
  popularity : Option ℚ
  genre_ids : List Int
deriving Repr, DecidableEq

/-- The validated request parameters, after the `try` block of the handler:
`rmin = int(...)`, `ywin = int(...)`, `vmin = float(...)`, `cmin = int(...)`,
`pages = max(1, min(int(...), 3))`. -/
structure Params where
  rmin : Int
  ywin : Int
  vmin : ℚ
  cmin : Int
  pages : Int
deriving Repr, DecidableEq

/-- The raw query string parameters (`request.args`), each either absent or
a string. -/
structure RawParams where
  rmin : Option String
  min_rating : Option String
  ywin : Option String
  vmin : Option String
  cmin : Option String
  pages : Option String
deriving Repr, DecidableEq

/-- Digit-string to number, on the character list of a string: succeeds
exactly on nonempty all-digit strings, which is also exactly when
`str.isdigit()` holds of an ASCII string, so this models both `int(s)` on
digit strings and the `s.isdigit() and int(s)` idiom. -/
def charsToNat? (l : List Char) : Option Nat :=
  if l ≠ [] ∧ l.all Char.isDigit then
    some (l.foldl (fun n c => n * 10 + (c.toNat - 48)) 0)
  else none

/-- ASCII whitespace, for the stripping `int`/`float` do. -/
def isSpaceChar (c : Char) : Bool :=
  c = ' ' ∨ c = '\t' ∨ c = '\n' ∨ c = '\r'

/-- Strip whitespace from both ends of a character list. -/
def trimChars (l : List Char) : List Char :=
  ((l.dropWhile isSpaceChar).reverse.dropWhile isSpaceChar).reverse

/-- Sign handling shared by `int` and `float`. -/
def signSplit : List Char → Bool × List Char
  | '-' :: rest => (true, rest)
  | '+' :: rest => (false, rest)
  | l => (false, l)

/-- Python `int(s)` on a string: optional whitespace, optional sign,
digits.  (Exotic accepted forms such as digit-group underscores or
non-ASCII digits are not modelled.) -/
def pyInt? (s : String) : Option Int :=
  let (neg, t) := signSplit (trimChars s.data)
  (charsToNat? t).map fun n => if neg then -(n : Int) else (n : Int)

/-- Core of Python `float(s)` for plain unsigned decimal literals (no
exponent / `inf` / `nan` forms, which never occur in the scenarios
considered): digits, digits `.` digits, digits `.`, or `.` digits. -/
def pyFloatCore? (l : List Char) : Option ℚ :=
  match l.splitOn '.' with
  | [a] => (charsToNat? a).map fun n => (n : ℚ)
  | [a, b] =>
    if a = [] ∧ b = [] then none
    else
      match (if a = [] then some 0 else charsToNat? a),
            (if b = [] then some 0 else charsToNat? b) with
      | some x, some y => some ((x : ℚ) + (y : ℚ) / ((10 : ℚ) ^ b.length))
      | _, _ => none
  | _ => none

/-- Python `float(s)`: optional whitespace and sign around `pyFloatCore?`. -/
def pyFloat? (s : String) : Option ℚ :=
  let (neg, t) := signSplit (trimChars s.data)
  (pyFloatCore? t).map fun q => if neg then -q else q

/-- `int(request.args.get("rmin", request.args.get("min_rating", 7)))`:
the `rmin` parameter falls back to `min_rating`, then to the integer 7. -/
def rminParsed (rp : RawParams) : Option Int :=
  match rp.rmin with
  | some s => pyInt? s
  | none =>
    match rp.min_rating with
    | some s => pyInt? s
    | none => some 7

/-- `int(request.args.get("ywin", 10))`. -/
def ywinParsed (rp : RawParams) : Option Int :=
  match rp.ywin with
  | some s => pyInt? s
  | none => some 10

/-- `float(request.args.get("vmin", 7.0))`. -/
def vminParsed (rp : RawParams) : Option ℚ :=
  match rp.vmin with
  | some s => pyFloat? s
  | none => some 7

/-- `int(request.args.get("cmin", 200))`. -/
def cminParsed (rp : RawParams) : Option Int :=
  match rp.cmin with
  | some s => pyInt? s
  | none => some 200

/-- `int(request.args.get("pages", 2))`, before the clamp. -/
def pagesParsed (rp : RawParams) : Option Int :=
  match rp.pages with
  | some s => pyInt? s
  | none => some 2

/-- The parameter-parsing `try` block of `api_recommendations`
(api.py lines 227-234).  `none` models the block raising, which the handler
turns into `BadRequest("Invalid parameters")`.  (Python evaluates the five
conversions in sequence and raises at the first failure; the result is the
same as this simultaneous match: `none` exactly when any conversion
fails.)  Note the only bound enforcement is the clamp
`max(1, min(pages, 3))`; no range check is made on `rmin`, `ywin`, `vmin`
or `cmin`. -/
def parseParams (rp : RawParams) : Option Params :=
  match rminParsed rp, ywinParsed rp, vminParsed rp, cminParsed rp, pagesParsed rp with
  | some rmin, some ywin, some vmin, some cmin, some pg =>
    some ⟨rmin, ywin, vmin, cmin, max 1 (min pg 3)⟩
  | _, _, _, _, _ => none

/-- Seed selection (api.py lines 236-241): watched, personal rating present
and `≥ rmin` (a NULL rating never satisfies the SQL comparison), owned by
the current user scope. -/
def seedsOf (db : List Movie) (user : Option String) (rmin : Int) : List Movie :=
  db.filter fun m =>
    m.watched &&
    (match m.personal_rating with
     | some r => decide (rmin ≤ r)
     | none => false) &&
    decide (m.owner = user)

/-- The set `have_tmdb` (api.py line 245): external ids of the user's
movies with source `"tmdb"`.  A NULL `external_id` can never equal a
stringified TMDB id, so dropping it via `filterMap` is faithful. -/
def haveTmdb (db : List Movie) (user : Option String) : List String :=
  (db.filter fun m =>
      decide (m.source = some "tmdb") && decide (m.owner = user)).filterMap
    fun m => m.external_id

/-- `int(m.year)` when `m.year` is a digit string (api.py lines 252-254,
`m.year.isdigit()` then `int`). -/
def seedYearOf (y : Option String) : Option Int :=
  match y with
  | none => none
  | some s => (charsToNat? s.data).map fun n => (n : Int)

/-- Python truthiness on an optional int: `0` and `None` are falsy.  Used
for `if seed_year else None` and the `not seed_year or not cand_year`
guard in `time_score`. -/
def truthyInt : Option Int → Option Int
  | some y => if y = 0 then none else some y
  | none => none

/-- `genre_overlap(seed_ids, cand_ids)` (api.py lines 284-288):
`len(set(seed_ids) & set(cand_ids)) / float(len(seed_ids))`, `0.0` for an
empty seed list.  `dedup` mirrors the `set()` on the seed side; the
denominator is the raw (non-deduplicated) length, as in the source. -/
def genre_overlap (seed_ids cand_ids : List Int) : ℚ :=
  if seed_ids = [] then 0
  else ((seed_ids.dedup.filter fun g => g ∈ cand_ids).length : ℚ) /
    (seed_ids.length : ℚ)

/-- `time_score(seed_year, cand_year)` (api.py lines 290-294):
`max(0, 1 - |Δ| / ywin)`, `0.0` when either year is falsy (`None` or `0`).
(Python would raise `ZeroDivisionError` at `ywin = 0`; rational division
makes the definition total there, and no property below depends on that
point.) -/
def time_score (ywin : Int) (seed_year cand_year : Option Int) : ℚ :=
  match truthyInt seed_year, truthyInt cand_year with
  | some s, some c => max 0 (1 - ((|s - c| : Int) : ℚ) / (ywin : ℚ))
  | _, _ => 0

/-- `rating_score(v)` (api.py lines 296-301): clamp `((v - 6) / 4)` to
`[0, 1]`. -/
def rating_score (v : ℚ) : ℚ := max 0 (min 1 ((v - 6) / 4))

/-- `pop_score(vc)` (api.py lines 303-308): clamp
`log1p(vc) / log1p(max_votes)` to `[0, 1]`, with `math.log1p` abstracted
as `log1p`. -/
def pop_score (log1p : ℚ → ℚ) (max_votes : Int) (vc : Int) : ℚ :=
  max 0 (min 1 (log1p (vc : ℚ) / log1p ((max_votes : Int) : ℚ)))

/-- `max_votes` (api.py line 282): the maximum `vote_count or 0` over the
pool, with `or 1` turning a falsy (zero) maximum into `1`. -/
def maxVotesOf (pool : List (String × Candidate)) : Int :=
  let l := pool.map fun kv => (kv.2.vote_count).getD 0
  let m : Int := match l with
    | [] => 0
    | x :: xs => xs.foldl max x
  if m = 0 then 1 else m

/-- The seed weight (api.py lines 321-322):
clamp `((personal_rating - rmin) / max(1, 10 - rmin))` to `[0, 1]`. -/
def seedWeight (rmin : Int) (pr : Option Int) : ℚ :=
  max 0 (min 1 ((((pr.getD 0 : Int) : ℚ) - (rmin : ℚ)) /
    ((max 1 (10 - rmin) : Int) : ℚ)))

/-- One seed's contribution to a candidate's score (api.py lines 318-329):
`sw * (0.55*go + 0.20*ts + 0.20*rs + 0.05*ps)`. -/
def seedContribution (log1p : ℚ → ℚ) (p : Params) (max_votes : Int)
    (s : Movie) (cyear : Option Int) (cgenres : List Int) (cr : ℚ) (cv : Int) : ℚ :=
  seedWeight p.rmin s.personal_rating *
    (0.55 * genre_overlap s.genres cgenres +
     0.20 * time_score p.ywin (seedYearOf s.year) cyear +
     0.20 * rating_score cr +
     0.05 * pop_score log1p max_votes cv)

/-- The aggregate score of one pooled candidate (api.py lines 311-333):
the candidate's fields are read once (`cyear`, `cgenres`, `cr`, `cv`), then
`total` accumulates the per-seed contributions over all seeds. -/
def candScore (log1p : ℚ → ℚ) (p : Params) (max_votes : Int)
    (seeds : List Movie) (c : Candidate) : ℚ :=
  let cyear : Option Int := (charsToNat? c.year.data).map fun n => (n : Int)
  let cr : ℚ := c.vote_average.getD 0
  let cv : Int := c.vote_count.getD 0
  seeds.foldl
    (fun total s => total + seedContribution log1p p max_votes s cyear c.genre_ids cr cv) 0

/-- A call issued to `mapi.discover_by_genres_window` (api.py lines
261-269): the arguments of one page fetch for one seed. -/
structure FetchCall where
  genres : List Int
  year_from : Option Int
  year_to : Option Int
  min_vote_average : ℚ
  min_vote_count : Int
  page : Int
deriving Repr, DecidableEq

/-- The `except Exception: cand = []` recovery (api.py lines 270-271):
a failed fetch contributes an empty candidate list. -/
def fetchRecover (r : Except Unit (List Candidate)) : List Candidate :=
  match r with
  | .ok l => l
  | .error _ => []

/-- Python-dict assignment `pool[tid] = it`: update in place when the key
is present (the entry keeps its position), append otherwise. -/
def dictInsert (pool : List (String × Candidate)) (tid : String) (it : Candidate) :
    List (String × Candidate) :=
  if pool.any fun kv => kv.1 = tid then
    pool.map fun kv => if kv.1 = tid then (tid, it) else kv
  else pool ++ [(tid, it)]

/-- The inner merge loop (api.py lines 272-276): each returned item with a
non-empty id not already in the user's catalog is written into the pool. -/
def mergeCandidates (haveIds : List String) (pool : List (String × Candidate))
    (cand : List Candidate) : List (String × Candidate) :=
  cand.foldl
    (fun pl it =>
      if it.tmdb_id = "" ∨ it.tmdb_id ∈ haveIds then pl
      else dictInsert pl it.tmdb_id it)
    pool

/-- `range(1, pages + 1)` as a list of page numbers. -/
def pageList (pages : Int) : List Int :=
  (List.range pages.toNat).map fun i => (i : Int) + 1

/-- The fetch calls the pool loop issues for one seed (api.py lines
248-269): none when the seed has no genres, otherwise one call per page
with the seed's genres, the derived year window (absent when the seed year
is falsy), and the request thresholds. -/
def seedFetches (p : Params) (m : Movie) : List FetchCall :=
  if m.genres = [] then []
  else
    (pageList p.pages).map fun pg =>
      { genres := m.genres
        year_from := (truthyInt (seedYearOf m.year)).map fun y => y - p.ywin
        year_to := (truthyInt (seedYearOf m.year)).map fun y => y + p.ywin
        min_vote_average := p.vmin
        min_vote_count := p.cmin
        page := pg }

/-- One step of the candidate-pool loop over the remaining seeds, carrying
the index `i` of the next seed (api.py lines 247-276): a seed without
genres is skipped (`continue`); otherwise each page is fetched (`resp i pg`,
with exceptions recovered to `[]`) and merged, and the issued calls are
appended to the trace. -/
def buildPoolGo (p : Params) (resp : Nat → Int → Except Unit (List Candidate))
    (haveIds : List String) :
    Nat → List Movie → List (String × Candidate) → List (Nat × FetchCall) →
    List (String × Candidate) × List (Nat × FetchCall)
  | _, [], pl, tr => (pl, tr)
  | i, m :: rest, pl, tr =>
    if m.genres = [] then buildPoolGo p resp haveIds (i + 1) rest pl tr
    else
      buildPoolGo p resp haveIds (i + 1) rest
        ((pageList p.pages).foldl
          (fun pl2 pg => mergeCandidates haveIds pl2 (fetchRecover (resp i pg))) pl)
        (tr ++ (seedFetches p m).map fun fc => (i, fc))

/-- The candidate-pool loop (api.py lines 247-276).  `resp i pg` is the
outcome of the page-`pg` fetch for the seed at index `i`.  Returns the
pool (insertion-ordered, keyed by id) and the trace of fetch calls issued,
tagged with the seed index. -/
def buildPool (p : Params) (resp : Nat → Int → Except Unit (List Candidate))
    (haveIds : List String) (seeds : List Movie) :
    List (String × Candidate) × List (Nat × FetchCall) :=
  buildPoolGo p resp haveIds 0 seeds [] []

/-- Stable insertion step for the descending sort by score: a new element
passes elements it strictly beats and lands after ties, which is exactly
the relative order a stable sort gives to elements arriving later. -/
def insertRanked (x : String × Candidate × ℚ) :
    List (String × Candidate × ℚ) → List (String × Candidate × ℚ)
  | [] => [x]
  | y :: ys => if y.2.2 < x.2.2 then x :: y :: ys else y :: insertRanked x ys

/-- `sorted(scores.items(), key=score, reverse=True)` (api.py line 340):
stable descending sort, processing entries in dict (insertion) order. -/
def rankScores (l : List (String × Candidate × ℚ)) : List (String × Candidate × ℚ) :=
  l.foldl (fun acc x => insertRanked x acc) []

/-- Ascending insertion sort on ints, modelling Python `sorted`. -/
def insertAsc (x : Int) : List Int → List Int
  | [] => [x]
  | y :: ys => if x ≤ y then x :: y :: ys else y :: insertAsc x ys

/-- `sorted` on a genre-id list. -/
def sortInts (l : List Int) : List Int := l.foldr insertAsc []

/-- The top-2 category signature (api.py lines 346-347):
`set(list(sorted(genre_ids))[:2])`. -/
def topSig (c : Candidate) : Finset Int :=
  ((sortInts c.genre_ids).take 2).toFinset

/-- The greedy diversity walk (api.py lines 342-353): skip a candidate
whose signature equals the previous accepted one (only when something has
been accepted), stop at 20 accepted. -/
def pickDiverse : List (String × Candidate × ℚ) → List Candidate → Finset Int →
    List Candidate
  | [], kept, _ => kept
  | x :: rest, kept, lastSig =>
    let gset := topSig x.2.1
    if kept ≠ [] ∧ gset = lastSig then pickDiverse rest kept lastSig
    else
      let kept2 := kept ++ [x.2.1]
      if 20 ≤ kept2.length then kept2 else pickDiverse rest kept2 gset

/-- The handler's possible responses: the `BadRequest` abort, the
`{"results": [], "reason": ...}` terminal forms, and the full payload
(parameters echoed, seed titles, ordered results).  The poster-url
enrichment (api.py lines 355-358) is a per-item map that changes neither
order, length, nor any field read by the engine, so results are reported
as the kept candidates. -/
inductive RecResult where
  | badRequest (msg : String)
  | terminal (reason : String)
  | ok (params : Params) (based_on : List String) (results : List Candidate)
deriving Repr, DecidableEq

/-- The scored map (api.py lines 310-335) in pool order, keeping the
candidate next to its id and score: entries with `total > 0` only. -/
def scoredOf (log1p : ℚ → ℚ) (p : Params) (max_votes : Int) (seeds : List Movie)
    (pool : List (String × Candidate)) : List (String × Candidate × ℚ) :=
  pool.filterMap fun kv =>
    let t := candScore log1p p max_votes seeds kv.2
    if 0 < t then some (kv.1, kv.2, t) else none

/-- The candidate pool of a request (first component of `buildPool`). -/
def poolOf (p : Params) (db : List Movie) (user : Option String)
    (resp : Nat → Int → Except Unit (List Candidate)) : List (String × Candidate) :=
  (buildPool p resp (haveTmdb db user) (seedsOf db user p.rmin)).1

/-- The fetch-call trace of a request (second component of `buildPool`). -/
def traceOf (p : Params) (db : List Movie) (user : Option String)
    (resp : Nat → Int → Except Unit (List Candidate)) : List (Nat × FetchCall) :=
  (buildPool p resp (haveTmdb db user) (seedsOf db user p.rmin)).2

/-- The scored entries of a request, in pool order. -/
def requestScored (log1p : ℚ → ℚ) (p : Params) (db : List Movie)
    (user : Option String) (resp : Nat → Int → Except Unit (List Candidate)) :
    List (String × Candidate × ℚ) :=
  scoredOf log1p p (maxVotesOf (poolOf p db user resp)) (seedsOf db user p.rmin)
    (poolOf p db user resp)

/-- The full `api_recommendations` handler (api.py lines 225-364), as a
function of the database snapshot, the session user, the catalog-client
oracle and the raw parameters.  Returns the response, the trace of fetch
calls issued, and the database after the request. -/
def api_recommendations (log1p : ℚ → ℚ) (db : List Movie) (user : Option String)
    (resp : Nat → Int → Except Unit (List Candidate)) (rp : RawParams) :
    RecResult × List (Nat × FetchCall) × List Movie :=
  match parseParams rp with
  | none => (.badRequest "Invalid parameters", [], db)
  | some p =>
    if seedsOf db user p.rmin = [] then
      (.terminal ("No watched movies with rating ≥ " ++ toString p.rmin ++ " yet."),
       [], db)
    else if poolOf p db user resp = [] then
      (.terminal "No suitable candidates found. Try lowering thresholds.",
       traceOf p db user resp, db)
    else if requestScored log1p p db user resp = [] then
      (.terminal "No high-scoring candidates. Try widening the window or lowering vmin.",
       traceOf p db user resp, db)
    else
      (.ok p ((seedsOf db user p.rmin).map fun m => m.title)
        (pickDiverse (rankScores (requestScored log1p p db user resp)) [] ∅),
       traceOf p db user resp, db)

/-- The aggregate score exactly as the spec words it (§4.3): the sum over
all seeds of seed-weight × weighted-sum, with
seed_weight = clamp((personal_rating − rating_threshold) / max(1, 10 − rating_threshold), 0, 1)
and weighted_sum = 0.55·genre_overlap + 0.20·time_proximity +
0.20·rating_score + 0.05·popularity_score.  Stated independently of the
handler's fold so `candScore` can be compared against it. -/
def specAggregateScore (log1p : ℚ → ℚ) (p : Params) (max_votes : Int)
    (seeds : List Movie) (c : Candidate) : ℚ :=
  (seeds.map fun s =>
    max 0 (min 1 ((((s.personal_rating.getD 0 : Int) : ℚ) - (p.rmin : ℚ)) /
        ((max 1 (10 - p.rmin) : Int) : ℚ))) *
      (0.55 * genre_overlap s.genres c.genre_ids +
       0.20 * time_score p.ywin (seedYearOf s.year)
         ((charsToNat? c.year.data).map fun n => (n : Int)) +
       0.20 * rating_score (c.vote_average.getD 0) +
       0.05 * pop_score log1p max_votes (c.vote_count.getD 0))).sum

/-- Lookup of a pool entry by key (the first — and, keys being unique, the
only — entry with that key). -/
def poolFind (pl : List (String × Candidate)) (tid : String) : Option Candidate :=
  (pl.find? fun kv => decide (kv.1 = tid)).map Prod.snd

/-- The pool invariant: every entry is keyed by its candidate's id and no
key belongs to the user's catalog ids. -/
def PoolInv (haveIds : List String) (pl : List (String × Candidate)) : Prop :=
  ∀ kv ∈ pl, kv.1 = kv.2.tmdb_id ∧ kv.1 ∉ haveIds

/-- An arbitrary concrete `log1p`, for the concrete scenarios (all general
theorems hold for every `log1p`). -/
def log1p0 : ℚ → ℚ := fun q => q

/-- The defaulted parameter record: `rmin 7, ywin 10, vmin 7.0, cmin 200,
pages 2`. -/
def p0 : Params := ⟨7, 10, 7, 200, 2⟩

/-- A concrete seed: watched, rated 9, year 1999, genres 878 and 53. -/
def seedMovie : Movie :=
  { title := "Alien", year := some "1999", external_id := none, source := none,
    personal_rating := some 9, watched := true, owner := none, genres := [878, 53] }

/-- A concrete seed without genres (still watched and rated 8). -/
def bareMovie : Movie :=
  { title := "Bare", year := some "2001", external_id := none, source := none,
    personal_rating := some 8, watched := true, owner := none, genres := [] }

/-- A catalog entry of the user with source `tmdb` and external id 42. -/
def ownedMovie : Movie :=
  { title := "Owned", year := some "2001", external_id := some "42",
    source := some "tmdb", personal_rating := none, watched := false,
    owner := none, genres := [] }

/-- A concrete candidate overlapping `seedMovie` in genre 878. -/
def cand1 : Candidate :=
  { tmdb_id := "101", title := "CandOne", year := "2001", poster_path := none,
    vote_average := some 8, vote_count := some 500, popularity := none,
    genre_ids := [878, 12] }

/-- A candidate with the same top-2 signature as `cand1` but a lower
rating. -/
def candDup : Candidate :=
  { tmdb_id := "102", title := "CandDup", year := "2002", poster_path := none,
    vote_average := some 7, vote_count := some 300, popularity := none,
    genre_ids := [12, 878] }

/-- A candidate with a different top-2 signature. -/
def candOther : Candidate :=
  { tmdb_id := "103", title := "CandOther", year := "1998", poster_path := none,
    vote_average := some 8, vote_count := some 400, popularity := none,
    genre_ids := [53] }

/-- A candidate whose external id 42 is already in the user's catalog. -/
def cand42 : Candidate :=
  { tmdb_id := "42", title := "AlreadyOwned", year := "2001", poster_path := none,
    vote_average := some 9, vote_count := some 900, popularity := none,
    genre_ids := [878] }

/-- Two records under the same external id 5, differing in content. -/
def candA : Candidate :=
  { tmdb_id := "5", title := "FirstRecord", year := "2000", poster_path := none,
    vote_average := some 9, vote_count := some 100, popularity := none,
    genre_ids := [878] }

/-- The second record under external id 5. -/
def candB : Candidate :=
  { tmdb_id := "5", title := "SecondRecord", year := "2003", poster_path := none,
    vote_average := some 8, vote_count := some 200, popularity := none,
    genre_ids := [53] }

/-- A one-seed database. -/
def db0 : List Movie := [seedMovie]

/-- A database with a seed and an owned tmdb entry (external id 42). -/
def db4 : List Movie := [seedMovie, ownedMovie]

/-- A database with a genre-ful seed and a genreless seed. -/
def db10 : List Movie := [seedMovie, bareMovie]

/-- A client always returning `cand1`. -/
def resp0 : Nat → Int → Except Unit (List Candidate) := fun _ _ => .ok [cand1]

/-- A client returning `cand42` (already owned) and `cand1`. -/
def resp4 : Nat → Int → Except Unit (List Candidate) :=
  fun _ _ => .ok [cand42, cand1]

/-- A client returning three candidates on page 1, nothing on page 2. -/
def resp5 : Nat → Int → Except Unit (List Candidate) :=
  fun _ pg => if pg = 1 then .ok [cand1, candDup, candOther] else .ok []

/-- A client whose second page raises. -/
def respFail : Nat → Int → Except Unit (List Candidate) :=
  fun _ pg => if pg = 2 then .error () else .ok [cand1]

/-- The same client with the raising page replaced by an empty success. -/
def respEmpty : Nat → Int → Except Unit (List Candidate) :=
  fun _ pg => if pg = 2 then .ok [] else .ok [cand1]

/-- A client returning record `candA` for id 5 on page 1 and record
`candB` for the same id on page 2. -/
def respDup : Nat → Int → Except Unit (List Candidate) :=
  fun _ pg => if pg = 1 then .ok [candA] else .ok [candB]

/-- All parameters absent: every default applies. -/
def rp0 : RawParams :=
  { rmin := none, min_rating := none, ywin := none, vmin := none, cmin := none,
    pages := none }

/-- A numeric but out-of-bounds request: `ywin = -5` (the documented bound
is `ywin > 0`). -/
def rpBadYwin : RawParams :=
  { rmin := none, min_rating := none, ywin := some "-5", vmin := none,
    cmin := none, pages := none }

/-- A non-numeric request: `rmin = "abc"`. -/
def rpNonNum : RawParams :=
  { rmin := some "abc", min_rating := none, ywin := none, vmin := none,
    cmin := none, pages := none }

/-- The fetch trace of the default one-seed scenarios: two pages for seed
index 0, genres 878 and 53, year window 1989-2009. -/
def trace0 : List (Nat × FetchCall) :=
  [(0, ⟨[878, 53], some 1989, some 2009, 7, 200, 1⟩),
   (0, ⟨[878, 53], some 1989, some 2009, 7, 200, 2⟩)]

/-- The page-1 fetch call of the default one-seed scenarios. -/
def fc1 : FetchCall := ⟨[878, 53], some 1989, some 2009, 7, 200, 1⟩

/-- Folding `+ f s` over a list from `init` is `init` plus the mapped sum. -/
theorem foldl_add_eq_sum {α : Type} (f : α → ℚ) :
    ∀ (l : List α) (init : ℚ),
      l.foldl (fun t s => t + f s) init = init + (l.map f).sum
  | [], init => by simp
  | x :: xs, init => by
    simp only [List.foldl_cons, List.map_cons, List.sum_cons]
    rw [foldl_add_eq_sum f xs]
    ring

/-- Everything in an `insertRanked` result is the new element or an old
one. -/
theorem mem_insertRanked (x : String × Candidate × ℚ) :
    ∀ (l : List (String × Candidate × ℚ)) (y), y ∈ insertRanked x l → y = x ∨ y ∈ l := by
  intro l
  induction l with
  | nil =>
    intro y hy
    simp only [insertRanked, List.mem_singleton] at hy
    exact Or.inl hy
  | cons z zs ih =>
    intro y hy
    by_cases hc : z.2.2 < x.2.2
    · rw [insertRanked, if_pos hc] at hy
      rcases List.mem_cons.1 hy with h | h
      · exact Or.inl h
      · exact Or.inr h
    · rw [insertRanked, if_neg hc] at hy
      rcases List.mem_cons.1 hy with h | h
      · exact Or.inr (by simp [h])
      · rcases ih y h with h2 | h2
        · exact Or.inl h2
        · exact Or.inr (by simp [h2])

/-- Everything in the fold underlying `rankScores` is in the accumulator
or in the remaining input. -/
theorem mem_rankScores_aux :
    ∀ (l acc : List (String × Candidate × ℚ)) (y),
      y ∈ l.foldl (fun a x => insertRanked x a) acc → y ∈ acc ∨ y ∈ l := by
  intro l
  induction l with
  | nil => intro acc y h; exact Or.inl h
  | cons x xs ih =>
    intro acc y h
    rw [List.foldl_cons] at h
    rcases ih _ y h with h2 | h2
    · rcases mem_insertRanked x acc y h2 with h3 | h3
      · exact Or.inr (by simp [h3])
      · exact Or.inl h3
    · exact Or.inr (by simp [h2])

/-- The ranked list is drawn from the scored list. -/
theorem mem_rankScores (l : List (String × Candidate × ℚ)) (y : String × Candidate × ℚ)
    (h : y ∈ rankScores l) : y ∈ l := by
  rcases mem_rankScores_aux l [] y h with h2 | h2
  · simp at h2
  · exact h2

/-- Every candidate returned by the diversity walk was already accepted or
comes from the ranked input. -/
theorem mem_pickDiverse :
    ∀ (l : List (String × Candidate × ℚ)) (kept : List Candidate) (lastSig : Finset Int)
      (c : Candidate), c ∈ pickDiverse l kept lastSig →
      c ∈ kept ∨ ∃ x ∈ l, x.2.1 = c := by
  intro l
  induction l with
  | nil =>
    intro kept lastSig c h
    exact Or.inl h
  | cons x rest ih =>
    intro kept lastSig c h
    rw [pickDiverse] at h
    by_cases hc : kept ≠ [] ∧ topSig x.2.1 = lastSig
    · rw [if_pos hc] at h
      rcases ih kept lastSig c h with h2 | ⟨y, hy, hyc⟩
      · exact Or.inl h2
      · exact Or.inr ⟨y, by simp [hy], hyc⟩
    · rw [if_neg hc] at h
      by_cases hl : 20 ≤ (kept ++ [x.2.1]).length
      · rw [if_pos hl] at h
        rcases List.mem_append.1 h with h2 | h2
        · exact Or.inl h2
        · exact Or.inr ⟨x, by simp, (List.mem_singleton.1 h2).symm⟩
      · rw [if_neg hl] at h
        rcases ih _ _ c h with h2 | ⟨y, hy, hyc⟩
        · rcases List.mem_append.1 h2 with h3 | h3
          · exact Or.inl h3
          · exact Or.inr ⟨x, by simp, (List.mem_singleton.1 h3).symm⟩
        · exact Or.inr ⟨y, by simp [hy], hyc⟩

/-- The diversity walk never lets two adjacent accepted candidates share a
top-2 signature, provided the accepted prefix already satisfies this and
its last element carries the remembered signature. -/
theorem pickDiverse_chain :
    ∀ (l : List (String × Candidate × ℚ)) (kept : List Candidate) (lastSig : Finset Int),
      List.Chain' (fun a b => topSig a ≠ topSig b) kept →
      (∀ x, kept.getLast? = some x → topSig x = lastSig) →
      List.Chain' (fun a b => topSig a ≠ topSig b) (pickDiverse l kept lastSig) := by
  intro l
  induction l with
  | nil => intro kept lastSig h1 _; exact h1
  | cons x rest ih =>
    intro kept lastSig h1 h2
    rw [pickDiverse]
    by_cases hc : kept ≠ [] ∧ topSig x.2.1 = lastSig
    · rw [if_pos hc]
      exact ih kept lastSig h1 h2
    · rw [if_neg hc]
      have hchain2 : List.Chain' (fun a b => topSig a ≠ topSig b) (kept ++ [x.2.1]) := by
        rw [List.chain'_append]
        refine ⟨h1, List.chain'_singleton _, ?_⟩
        intro a ha b hb
        rcases List.eq_nil_or_concat kept with hk | _
        · subst hk; simp at ha
        · have hk : kept ≠ [] := by
            intro hnil
            rw [hnil] at ha; simp at ha
          have hsig := h2 a ha
          have hb2 : x.2.1 = b := by simpa using hb
          subst hb2
          rw [hsig]
          intro hEq
          exact hc ⟨hk, hEq.symm⟩
      by_cases hl : 20 ≤ (kept ++ [x.2.1]).length
      · rw [if_pos hl]
        exact hchain2
      · rw [if_neg hl]
        refine ih _ _ hchain2 ?_
        intro y hy
        rw [List.getLast?_concat] at hy
        cases hy
        rfl

/-- The diversity walk stops at 20: starting from fewer than 20 accepted,
it never returns more than 20. -/
theorem pickDiverse_length :
    ∀ (l : List (String × Candidate × ℚ)) (kept : List Candidate) (lastSig : Finset Int),
      kept.length ≤ 19 → (pickDiverse l kept lastSig).length ≤ 20 := by
  intro l
  induction l with
  | nil =>
    intro kept lastSig h
    show kept.length ≤ 20
    omega
  | cons x rest ih =>
    intro kept lastSig h
    rw [pickDiverse]
    by_cases hc : kept ≠ [] ∧ topSig x.2.1 = lastSig
    · rw [if_pos hc]; exact ih kept lastSig h
    · rw [if_neg hc]
      by_cases hl : 20 ≤ (kept ++ [x.2.1]).length
      · rw [if_pos hl]
        simp only [List.length_append, List.length_singleton]
        omega
      · rw [if_neg hl]
        apply ih
        simp only [List.length_append, List.length_singleton] at hl ⊢
        omega

/-- `dictInsert` preserves the pool invariant when the inserted entry
itself satisfies it. -/
theorem dictInsert_poolInv (haveIds : List String) (pl : List (String × Candidate))
    (tid : String) (it : Candidate) (hpl : PoolInv haveIds pl)
    (h1 : tid = it.tmdb_id) (h2 : tid ∉ haveIds) :
    PoolInv haveIds (dictInsert pl tid it) := by
  intro kv hkv
  unfold dictInsert at hkv
  by_cases hc : (pl.any fun kv => kv.1 = tid) = true
  · rw [if_pos hc] at hkv
    rcases List.mem_map.1 hkv with ⟨kv0, hkv0, heq⟩
    by_cases hk : kv0.1 = tid
    · rw [if_pos hk] at heq
      rw [← heq]
      exact ⟨h1, h2⟩
    · rw [if_neg hk] at heq
      rw [← heq]
      exact hpl kv0 hkv0
  · rw [if_neg hc] at hkv
    rcases List.mem_append.1 hkv with h | h
    · exact hpl kv h
    · have : kv = (tid, it) := by simpa using h
      rw [this]
      exact ⟨h1, h2⟩

/-- Merging a fetched candidate list preserves the pool invariant. -/
theorem mergeCandidates_poolInv (haveIds : List String) :
    ∀ (cand : List Candidate) (pl : List (String × Candidate)),
      PoolInv haveIds pl → PoolInv haveIds (mergeCandidates haveIds pl cand) := by
  intro cand
  induction cand with
  | nil => intro pl h; exact h
  | cons it rest ih =>
    intro pl h
    rw [mergeCandidates, List.foldl_cons]
    by_cases hg : it.tmdb_id = "" ∨ it.tmdb_id ∈ haveIds
    · rw [if_pos hg]
      exact ih pl h
    · rw [if_neg hg]
      push_neg at hg
      exact ih _ (dictInsert_poolInv haveIds pl it.tmdb_id it h rfl hg.2)

/-- A property of pools preserved by every merge step is preserved by the
whole seed loop. -/
theorem buildPoolGo_preserve (p : Params)
    (resp : Nat → Int → Except Unit (List Candidate)) (haveIds : List String)
    (P : List (String × Candidate) → Prop)
    (hstep : ∀ pl cand, P pl → P (mergeCandidates haveIds pl cand)) :
    ∀ (seeds : List Movie) (i : Nat) (pl : List (String × Candidate))
      (tr : List (Nat × FetchCall)),
      P pl → P (buildPoolGo p resp haveIds i seeds pl tr).1 := by
  intro seeds
  induction seeds with
  | nil => intro i pl tr h; exact h
  | cons m rest ih =>
    intro i pl tr h
    rw [buildPoolGo]
    by_cases hg : m.genres = []
    · rw [if_pos hg]
      exact ih _ _ _ h
    · rw [if_neg hg]
      apply ih
      have haux : ∀ (pgs : List Int) (pl2 : List (String × Candidate)), P pl2 →
          P (pgs.foldl
            (fun pl3 pg => mergeCandidates haveIds pl3 (fetchRecover (resp i pg))) pl2) := by
        intro pgs
        induction pgs with
        | nil => intro pl2 h2; exact h2
        | cons pg rest2 ih2 =>
          intro pl2 h2
          rw [List.foldl_cons]
          exact ih2 _ (hstep _ _ h2)
      exact haux _ _ h

/-- The full pool of a request satisfies the pool invariant. -/
theorem buildPool_poolInv (p : Params)
    (resp : Nat → Int → Except Unit (List Candidate)) (haveIds : List String)
    (seeds : List Movie) : PoolInv haveIds (buildPool p resp haveIds seeds).1 := by
  unfold buildPool
  apply buildPoolGo_preserve p resp haveIds (PoolInv haveIds)
    (mergeCandidates_poolInv haveIds |> fun h pl cand => h cand pl)
  intro kv hkv
  simp at hkv

/-- The keys of a `dictInsert` with a present key are unchanged. -/
theorem dictInsert_keys_of_present (pl : List (String × Candidate)) (tid : String)
    (it : Candidate) (h : (pl.any fun kv => kv.1 = tid) = true) :
    (dictInsert pl tid it).map Prod.fst = pl.map Prod.fst := by
  unfold dictInsert
  rw [if_pos h, List.map_map]
  apply List.map_congr_left
  intro kv _
  by_cases hk : kv.1 = tid
  · simp [hk]
  · simp [hk]

/-- `dictInsert` preserves distinctness of the pool keys. -/
theorem dictInsert_keys_nodup (pl : List (String × Candidate)) (tid : String)
    (it : Candidate) (h : (pl.map Prod.fst).Nodup) :
    ((dictInsert pl tid it).map Prod.fst).Nodup := by
  by_cases hc : (pl.any fun kv => kv.1 = tid) = true
  · rw [dictInsert_keys_of_present pl tid it hc]
    exact h
  · unfold dictInsert
    rw [if_neg hc, List.map_append]
    simp only [List.map_cons, List.map_nil]
    rw [List.nodup_append]
    refine ⟨h, List.nodup_singleton _, ?_⟩
    intro a ha hb
    have hb2 : a = tid := by simpa using hb
    subst hb2
    rcases List.mem_map.1 ha with ⟨kv, hkv, hfst⟩
    apply hc
    rw [List.any_eq_true]
    exact ⟨kv, hkv, by simp [hfst]⟩

/-- Merging preserves distinctness of the pool keys. -/
theorem mergeCandidates_keys_nodup (haveIds : List String) :
    ∀ (cand : List Candidate) (pl : List (String × Candidate)),
      (pl.map Prod.fst).Nodup → ((mergeCandidates haveIds pl cand).map Prod.fst).Nodup := by
  intro cand
  induction cand with
  | nil => intro pl h; exact h
  | cons it rest ih =>
    intro pl h
    rw [mergeCandidates, List.foldl_cons]
    by_cases hg : it.tmdb_id = "" ∨ it.tmdb_id ∈ haveIds
    · rw [if_pos hg]
      exact ih pl h
    · rw [if_neg hg]
      exact ih _ (dictInsert_keys_nodup pl it.tmdb_id it h)

/-- Every key appears at most once in the pool of a request. -/
theorem buildPool_keys_nodup (p : Params)
    (resp : Nat → Int → Except Unit (List Candidate)) (haveIds : List String)
    (seeds : List Movie) : ((buildPool p resp haveIds seeds).1.map Prod.fst).Nodup := by
  unfold buildPool
  apply buildPoolGo_preserve p resp haveIds (fun pl => (pl.map Prod.fst).Nodup)
    (fun pl cand h => mergeCandidates_keys_nodup haveIds cand pl h)
  simp

/-- Every trace entry was present initially or comes from a seed with a
non-empty genre list, at the position the index records. -/
theorem buildPoolGo_trace_mem (p : Params)
    (resp : Nat → Int → Except Unit (List Candidate)) (haveIds : List String) :
    ∀ (seeds : List Movie) (i : Nat) (pl : List (String × Candidate))
      (tr : List (Nat × FetchCall)) (j : Nat) (fc : FetchCall),
      (j, fc) ∈ (buildPoolGo p resp haveIds i seeds pl tr).2 →
      (j, fc) ∈ tr ∨ ∃ k m, seeds.get? k = some m ∧ j = i + k ∧ m.genres ≠ [] := by
  intro seeds
  induction seeds with
  | nil => intro i pl tr j fc h; exact Or.inl h
  | cons m rest ih =>
    intro i pl tr j fc h
    rw [buildPoolGo] at h
    by_cases hg : m.genres = []
    · rw [if_pos hg] at h
      rcases ih (i + 1) pl tr j fc h with h2 | ⟨k, m2, hk, hj, hg2⟩
      · exact Or.inl h2
      · exact Or.inr ⟨k + 1, m2, by simpa using hk, by omega, hg2⟩
    · rw [if_neg hg] at h
      rcases ih (i + 1) _ _ j fc h with h2 | ⟨k, m2, hk, hj, hg2⟩
      · rcases List.mem_append.1 h2 with h3 | h3
        · exact Or.inl h3
        · rcases List.mem_map.1 h3 with ⟨fc2, _, heq⟩
          have hj : j = i := by
            have := congrArg Prod.fst heq
            simpa using this.symm
          exact Or.inr ⟨0, m, rfl, by omega, hg⟩
      · exact Or.inr ⟨k + 1, m2, by simpa using hk, by omega, hg2⟩

/-- `buildPool` depends on the client only through the recovered (post
`try/except`) fetch results. -/
theorem buildPool_congr (p : Params)
    (resp resp2 : Nat → Int → Except Unit (List Candidate)) (haveIds : List String)
    (h : ∀ i pg, fetchRecover (resp i pg) = fetchRecover (resp2 i pg)) :
    ∀ (seeds : List Movie),
      buildPool p resp haveIds seeds = buildPool p resp2 haveIds seeds := by
  have aux : ∀ (seeds : List Movie) (i : Nat) (pl : List (String × Candidate))
      (tr : List (Nat × FetchCall)),
      buildPoolGo p resp haveIds i seeds pl tr = buildPoolGo p resp2 haveIds i seeds pl tr := by
    intro seeds
    induction seeds with
    | nil => intro i pl tr; rfl
    | cons m rest ih =>
      intro i pl tr
      rw [buildPoolGo, buildPoolGo]
      by_cases hg : m.genres = []
      · rw [if_pos hg, if_pos hg]
        exact ih _ _ _
      · rw [if_neg hg, if_neg hg]
        simp only [h]
        exact ih _ _ _
  intro seeds
  unfold buildPool
  exact aux seeds 0 [] []

/-- Inversion of a successful parameter parse: the components come from
the five conversions, with `pages` clamped. -/
theorem parseParams_some_inv (rp : RawParams) (p : Params)
    (h : parseParams rp = some p) :
    ∃ rmin ywin vmin cmin pg,
      rminParsed rp = some rmin ∧ ywinParsed rp = some ywin ∧
      vminParsed rp = some vmin ∧ cminParsed rp = some cmin ∧
      pagesParsed rp = some pg ∧ p = ⟨rmin, ywin, vmin, cmin, max 1 (min pg 3)⟩ := by
  unfold parseParams at h
  cases h1 : rminParsed rp with
  | none => rw [h1] at h; simp at h
  | some rmin =>
    cases h2 : ywinParsed rp with
    | none => rw [h1, h2] at h; simp at h
    | some ywin =>
      cases h3 : vminParsed rp with
      | none => rw [h1, h2, h3] at h; simp at h
      | some vmin =>
        cases h4 : cminParsed rp with
        | none => rw [h1, h2, h3, h4] at h; simp at h
        | some cmin =>
          cases h5 : pagesParsed rp with
          | none => rw [h1, h2, h3, h4, h5] at h; simp at h
          | some pg =>
            rw [h1, h2, h3, h4, h5] at h
            simp only [Option.some.injEq] at h
            exact ⟨rmin, ywin, vmin, cmin, pg, rfl, rfl, rfl, rfl, rfl, h.symm⟩

/-- Inversion of the handler's success case: the parameters parsed, and
the results are the diversity walk over the ranked scored pool. -/
theorem api_recommendations_ok_inv (log1p : ℚ → ℚ) (db : List Movie)
    (user : Option String) (resp : Nat → Int → Except Unit (List Candidate))
    (rp : RawParams) (p : Params) (bs : List String) (results : List Candidate)
    (tr : List (Nat × FetchCall)) (db2 : List Movie)
    (h : api_recommendations log1p db user resp rp = (.ok p bs results, tr, db2)) :
    parseParams rp = some p ∧
    results = pickDiverse (rankScores (requestScored log1p p db user resp)) [] ∅ ∧
    tr = traceOf p db user resp ∧ db2 = db := by
  unfold api_recommendations at h
  cases hpp : parseParams rp with
  | none =>
    rw [hpp] at h
    simp at h
  | some q =>
    rw [hpp] at h
    simp only [] at h
    by_cases h1 : seedsOf db user q.rmin = []
    · rw [if_pos h1] at h
      simp at h
    · rw [if_neg h1] at h
      by_cases h2 : poolOf q db user resp = []
      · rw [if_pos h2] at h
        simp at h
      · rw [if_neg h2] at h
        by_cases h3 : requestScored log1p q db user resp = []
        · rw [if_pos h3] at h
          simp at h
        · rw [if_neg h3] at h
          simp only [Prod.mk.injEq, RecResult.ok.injEq] at h
          obtain ⟨⟨hq, _, hres⟩, htr, hdb⟩ := h
          subst hq
          exact ⟨rfl, hres.symm, htr.symm, hdb.symm⟩

/-- A scored entry comes from a pool entry, carries that entry's candidate
and its (positive) aggregate score. -/
theorem mem_scoredOf_inv (log1p : ℚ → ℚ) (p : Params) (max_votes : Int)
    (seeds : List Movie) (pool : List (String × Candidate))
    (x : String × Candidate × ℚ) (h : x ∈ scoredOf log1p p max_votes seeds pool) :
    ∃ kv ∈ pool, x = (kv.1, kv.2, candScore log1p p max_votes seeds kv.2) ∧
      0 < candScore log1p p max_votes seeds kv.2 := by
  unfold scoredOf at h
  rcases List.mem_filterMap.1 h with ⟨kv, hkv, heq⟩
  simp only [] at heq
  by_cases hpos : 0 < candScore log1p p max_votes seeds kv.2
  · rw [if_pos hpos] at heq
    exact ⟨kv, hkv, by rw [← Option.some_inj.1 heq], hpos⟩
  · rw [if_neg hpos] at heq
    simp at heq

/-- Looking up the key just written by the replacing branch finds the new
record. -/
theorem poolFind_map_update (tid : String) (it : Candidate) :
    ∀ (pl : List (String × Candidate)),
      (pl.any fun kv => kv.1 = tid) = true →
      poolFind (pl.map fun kv => if kv.1 = tid then (tid, it) else kv) tid = some it := by
  intro pl
  induction pl with
  | nil => intro h; simp at h
  | cons kv rest ih =>
    intro h
    by_cases hk : kv.1 = tid
    · simp [poolFind, List.find?, hk]
    · have h2 : (rest.any fun kv => kv.1 = tid) = true := by
        rcases List.any_eq_true.1 h with ⟨kv2, hkv2, hEq⟩
        rcases List.mem_cons.1 hkv2 with h3 | h3
        · subst h3; simp [hk] at hEq
        · exact List.any_eq_true.2 ⟨kv2, h3, hEq⟩
      have := ih h2
      simp only [List.map_cons, if_neg hk, poolFind, List.find?] at this ⊢
      simp only [decide_eq_false hk]
      exact this

/-- Looking up the key just appended by the fresh branch finds the new
record. -/
theorem poolFind_append_new (tid : String) (it : Candidate) :
    ∀ (pl : List (String × Candidate)),
      (pl.any fun kv => kv.1 = tid) = false →
      poolFind (pl ++ [(tid, it)]) tid = some it := by
  intro pl
  induction pl with
  | nil => intro _; simp [poolFind, List.find?]
  | cons kv rest ih =>
    intro h
    rw [List.any_cons] at h
    have hk : (kv.1 = tid) = False := by
      by_contra hcon
      simp at hcon
      simp [hcon] at h
    have h2 : (rest.any fun kv => kv.1 = tid) = false := by
      rcases Bool.or_eq_false_iff.1 h with ⟨_, h3⟩
      exact h3
    have hk2 : ¬(kv.1 = tid) := by rw [hk]; exact id
    simp only [List.cons_append, poolFind, List.find?]
    rw [decide_eq_false hk2]
    simpa [poolFind] using ih h2

/-- Writing a record under a key and looking that key up yields exactly
the record just written: the last write wins. -/
theorem poolFind_dictInsert (pl : List (String × Candidate)) (tid : String)
    (it : Candidate) : poolFind (dictInsert pl tid it) tid = some it := by
  unfold dictInsert
  by_cases hc : (pl.any fun kv => kv.1 = tid) = true
  · rw [if_pos hc]
    exact poolFind_map_update tid it pl hc
  · rw [if_neg hc]
    exact poolFind_append_new tid it pl (Bool.not_eq_true _ ▸ hc)

/-- Claim C1: for every pooled candidate the aggregate score equals the
sum over all qualifying seeds of
seed_weight × (0.55·genre_overlap + 0.20·time_proximity + 0.20·rating_score
+ 0.05·popularity_score), with seed_weight =
clamp((personal_rating − rmin) / max(1, 10 − rmin), 0, 1); and every
candidate whose aggregate is ≤ 0 is dropped from the scored set, so every
scored entry and every returned candidate has a positive aggregate. -/
theorem candidate_aggregate_is_weighted_seed_sum (log1p : ℚ → ℚ) (db : List Movie)
    (user : Option String) (resp : Nat → Int → Except Unit (List Candidate))
    (rp : RawParams) (p : Params) (bs : List String) (results : List Candidate)
    (tr : List (Nat × FetchCall)) (db2 : List Movie)
    (h : api_recommendations log1p db user resp rp = (.ok p bs results, tr, db2)) :
    (∀ max_votes seeds c,
      candScore log1p p max_votes seeds c = specAggregateScore log1p p max_votes seeds c) ∧
    (∀ x ∈ requestScored log1p p db user resp, 0 < x.2.2) ∧
    (∀ c ∈ results,
      0 < candScore log1p p (maxVotesOf (poolOf p db user resp)) (seedsOf db user p.rmin) c) := by
  refine ⟨?_, ?_, ?_⟩
  · intro max_votes seeds c
    simp only [candScore, specAggregateScore]
    rw [foldl_add_eq_sum, zero_add]
    rfl
  · intro x hx
    unfold requestScored at hx
    rcases mem_scoredOf_inv _ _ _ _ _ _ hx with ⟨kv, _, hxeq, hpos⟩
    rw [hxeq]
    exact hpos
  · intro c hc
    obtain ⟨_, hres, _, _⟩ := api_recommendations_ok_inv _ _ _ _ _ _ _ _ _ _ h
    rw [hres] at hc
    rcases mem_pickDiverse _ _ _ c hc with h0 | ⟨x, hx, hxc⟩
    · simp at h0
    · have hx2 := mem_rankScores _ _ hx
      unfold requestScored at hx2
      rcases mem_scoredOf_inv _ _ _ _ _ _ hx2 with ⟨kv, _, hxeq, hpos⟩
      have hc2 : c = kv.2 := by rw [hxeq] at hxc; exact hxc.symm
      rw [hc2]
      exact hpos

/-- Claim C4: no candidate whose external identifier is already in the
requesting user's catalog ever appears in the returned result list; the
exclusion is a hard filter on the pool itself (every pool entry is keyed
by its candidate's id and that key is outside the catalog), applied before
any scoring. -/
theorem catalog_members_never_recommended (log1p : ℚ → ℚ) (db : List Movie)
    (user : Option String) (resp : Nat → Int → Except Unit (List Candidate))
    (rp : RawParams) (p : Params) (bs : List String) (results : List Candidate)
    (tr : List (Nat × FetchCall)) (db2 : List Movie)
    (h : api_recommendations log1p db user resp rp = (.ok p bs results, tr, db2)) :
    (∀ kv ∈ poolOf p db user resp,
      kv.1 = kv.2.tmdb_id ∧ kv.1 ∉ haveTmdb db user) ∧
    (∀ c ∈ results, c.tmdb_id ∉ haveTmdb db user) := by
  have hinv : PoolInv (haveTmdb db user) (poolOf p db user resp) :=
    buildPool_poolInv p resp (haveTmdb db user) (seedsOf db user p.rmin)
  refine ⟨hinv, ?_⟩
  intro c hc
  obtain ⟨_, hres, _, _⟩ := api_recommendations_ok_inv _ _ _ _ _ _ _ _ _ _ h
  rw [hres] at hc
  rcases mem_pickDiverse _ _ _ c hc with h0 | ⟨x, hx, hxc⟩
  · simp at h0
  · have hx2 := mem_rankScores _ _ hx
    unfold requestScored at hx2
    rcases mem_scoredOf_inv _ _ _ _ _ _ hx2 with ⟨kv, hkv, hxeq, _⟩
    have hc2 : c = kv.2 := by rw [hxeq] at hxc; exact hxc.symm
    obtain ⟨hkey, hnot⟩ := hinv kv hkv
    rw [hc2, ← hkey]
    exact hnot

/-- Claim C5: in every returned result list, no two consecutive entries
share an identical top-2 sorted category signature (proved without the
spec's fewer-than-two-signatures escape clause, which is therefore never
needed). -/
theorem consecutive_results_differ_in_signature (log1p : ℚ → ℚ) (db : List Movie)
    (user : Option String) (resp : Nat → Int → Except Unit (List Candidate))
    (rp : RawParams) (p : Params) (bs : List String) (results : List Candidate)
    (tr : List (Nat × FetchCall)) (db2 : List Movie)
    (h : api_recommendations log1p db user resp rp = (.ok p bs results, tr, db2)) :
    List.Chain' (fun a b => topSig a ≠ topSig b) results := by
  obtain ⟨_, hres, _, _⟩ := api_recommendations_ok_inv _ _ _ _ _ _ _ _ _ _ h
  rw [hres]
  apply pickDiverse_chain
  · exact List.chain'_nil
  · intro x hx
    simp at hx

/-- Claim C7: the returned results list never holds more than 20
candidates. -/
theorem results_length_at_most_twenty (log1p : ℚ → ℚ) (db : List Movie)
    (user : Option String) (resp : Nat → Int → Except Unit (List Candidate))
    (rp : RawParams) (p : Params) (bs : List String) (results : List Candidate)
    (tr : List (Nat × FetchCall)) (db2 : List Movie)
    (h : api_recommendations log1p db user resp rp = (.ok p bs results, tr, db2)) :
    results.length ≤ 20 := by
  obtain ⟨_, hres, _, _⟩ := api_recommendations_ok_inv _ _ _ _ _ _ _ _ _ _ h
  rw [hres]
  apply pickDiverse_length
  simp

/-- Claim C2 (amended): a request whose parameters fail numeric conversion
is rejected as a client error before any catalog fetch (bad-request
response, empty fetch trace, untouched database); numeric values outside
the documented bounds are NOT rejected — the only bound enforcement is
that `pages` is clamped into [1, 3], while `rmin`, `ywin`, `vmin` and
`cmin` are used as given. -/
theorem nonnumeric_params_rejected_before_fetch (log1p : ℚ → ℚ) (db : List Movie)
    (user : Option String) (resp : Nat → Int → Except Unit (List Candidate))
    (rp : RawParams) :
    (parseParams rp = none →
      api_recommendations log1p db user resp rp =
        (.badRequest "Invalid parameters", [], db)) ∧
    (∀ p, parseParams rp = some p → 1 ≤ p.pages ∧ p.pages ≤ 3) := by
  constructor
  · intro h
    unfold api_recommendations
    rw [h]
  · intro p hp
    rcases parseParams_some_inv rp p hp with ⟨rmin, ywin, vmin, cmin, pg, _, _, _, _, _, hpe⟩
    subst hpe
    constructor
    · exact le_max_left 1 _
    · apply max_le
      · norm_num
      · exact min_le_right pg 3

/-- Claim C3 (amended): every external identifier appears at most once in
the pool (the key list is duplicate-free), but on a duplicate fetch the
pool keeps the record of the LAST occurrence: writing a record under a key
makes the lookup of that key return exactly the record just written, while
the key keeps its original position (the key list is unchanged when the
key was already present). -/
theorem pool_unique_keys_last_write_wins (p : Params)
    (resp : Nat → Int → Except Unit (List Candidate)) (haveIds : List String)
    (seeds : List Movie) :
    ((buildPool p resp haveIds seeds).1.map Prod.fst).Nodup ∧
    (∀ pl tid it, poolFind (dictInsert pl tid it) tid = some it) ∧
    (∀ pl tid it, (pl.any fun kv => kv.1 = tid) = true →
      (dictInsert pl tid it).map Prod.fst = pl.map Prod.fst) :=
  ⟨buildPool_keys_nodup p resp haveIds seeds,
   fun pl tid it => poolFind_dictInsert pl tid it,
   fun pl tid it h => dictInsert_keys_of_present pl tid it h⟩

/-- Claim C6: the handler depends on the catalog client only through the
post-`try/except` recovered fetch results — a fetch that raises is
indistinguishable from one returning no results, so no upstream failure
propagates and the response is computed from the successfully fetched
data only. -/
theorem fetch_failures_equivalent_to_empty_results (log1p : ℚ → ℚ) (db : List Movie)
    (user : Option String) (resp resp2 : Nat → Int → Except Unit (List Candidate))
    (rp : RawParams)
    (h : ∀ i pg, fetchRecover (resp i pg) = fetchRecover (resp2 i pg)) :
    api_recommendations log1p db user resp rp =
      api_recommendations log1p db user resp2 rp := by
  unfold api_recommendations
  cases hpp : parseParams rp with
  | none => rfl
  | some p =>
    have hpool : poolOf p db user resp = poolOf p db user resp2 := by
      unfold poolOf
      rw [buildPool_congr p resp resp2 (haveTmdb db user) h]
    have htr : traceOf p db user resp = traceOf p db user resp2 := by
      unfold traceOf
      rw [buildPool_congr p resp resp2 (haveTmdb db user) h]
    have hsc : requestScored log1p p db user resp = requestScored log1p p db user resp2 := by
      unfold requestScored
      rw [hpool]
    dsimp only
    rw [hpool, htr, hsc]

/-- Claim C8: two calls with the same catalog snapshot, user scope,
delivered client responses and raw parameters produce the same response
(in particular the same ordered result list). -/
theorem identical_inputs_identical_results (log1p : ℚ → ℚ) (db db2 : List Movie)
    (user user2 : Option String) (resp resp2 : Nat → Int → Except Unit (List Candidate))
    (rp rp2 : RawParams) (hdb : db = db2) (hu : user = user2)
    (hresp : ∀ i pg, resp i pg = resp2 i pg) (hrp : rp = rp2) :
    api_recommendations log1p db user resp rp =
      api_recommendations log1p db2 user2 resp2 rp2 := by
  subst hdb
  subst hu
  subst hrp
  have hr : resp = resp2 := funext fun i => funext fun pg => hresp i pg
  rw [hr]

/-- Claim C9: the recommendation handler never mutates persistent state —
the database after the request equals the database before it, on every
path (bad request, every terminal form, and success). -/
theorem recommendations_never_mutate_database (log1p : ℚ → ℚ) (db : List Movie)
    (user : Option String) (resp : Nat → Int → Except Unit (List Candidate))
    (rp : RawParams) :
    (api_recommendations log1p db user resp rp).2.2 = db := by
  unfold api_recommendations
  cases hpp : parseParams rp with
  | none => rfl
  | some p =>
    dsimp only
    split_ifs <;> rfl

/-- Claim C10: a qualifying seed with an empty category-tag set triggers
no catalog fetch (no trace entry carries its index), yet its per-seed
contribution to any candidate is
seed_weight × (0.20·time_proximity + 0.20·rating_score +
0.05·popularity_score) — only the genre-overlap term is forced to zero,
and the contribution is still summed into every candidate's aggregate
(`candScore` folds `seedContribution` over all seeds). -/
theorem genreless_seed_no_fetch_but_scores (log1p : ℚ → ℚ) (p : Params)
    (resp : Nat → Int → Except Unit (List Candidate)) (haveIds : List String)
    (seeds : List Movie) (s : Movie) (k : Nat)
    (hk : seeds.get? k = some s) (hs : s.genres = []) :
    (∀ fc, (k, fc) ∉ (buildPool p resp haveIds seeds).2) ∧
    (∀ max_votes cyear cgenres cr cv,
      seedContribution log1p p max_votes s cyear cgenres cr cv =
        seedWeight p.rmin s.personal_rating *
          (0.20 * time_score p.ywin (seedYearOf s.year) cyear +
           0.20 * rating_score cr + 0.05 * pop_score log1p max_votes cv)) := by
  constructor
  · intro fc hmem
    unfold buildPool at hmem
    rcases buildPoolGo_trace_mem p resp haveIds seeds 0 [] [] k fc hmem with
      h0 | ⟨k2, m2, hk2, hj, hg⟩
    · simp at h0
    · have hkk : k2 = k := by omega
      subst hkk
      rw [hk] at hk2
      cases hk2
      exact hg hs
  · intro max_votes cyear cgenres cr cv
    unfold seedContribution
    rw [hs]
    unfold genre_overlap
    rw [if_pos rfl]
    ring

section

attribute [local semireducible] Rat.add Rat.mul Rat.inv Rat.sub Rat.ofScientific

/-- Witness for C1 at the default one-seed scenario: the formula equality
and the positivity of the returned candidate's aggregate, concretely. -/
theorem candidate_aggregate_is_weighted_seed_sum_witness :
    candScore log1p0 p0 (maxVotesOf (poolOf p0 db0 none resp0))
        (seedsOf db0 none p0.rmin) cand1 =
      specAggregateScore log1p0 p0 (maxVotesOf (poolOf p0 db0 none resp0))
        (seedsOf db0 none p0.rmin) cand1 ∧
    0 < candScore log1p0 p0 (maxVotesOf (poolOf p0 db0 none resp0))
        (seedsOf db0 none p0.rmin) cand1 :=
  ⟨(candidate_aggregate_is_weighted_seed_sum log1p0 db0 none resp0 rp0 p0
      ["Alien"] [cand1] trace0 db0 (by decide)).1 _ _ _,
   (candidate_aggregate_is_weighted_seed_sum log1p0 db0 none resp0 rp0 p0
      ["Alien"] [cand1] trace0 db0 (by decide)).2.2 cand1 (by decide)⟩

/-- Counterexample for C2: the request with `ywin = "-5"` carries a
numeric parameter outside its documented bound (`ywin > 0`), yet it parses
successfully, is not rejected as a client error, and catalog fetches do
occur. -/
theorem out_of_bounds_params_not_rejected :
    parseParams rpBadYwin = some ⟨7, -5, 7, 200, 2⟩ ∧
    (-5 : Int) ≤ 0 ∧
    (api_recommendations log1p0 db0 none resp0 rpBadYwin).1 ≠
      RecResult.badRequest "Invalid parameters" ∧
    (api_recommendations log1p0 db0 none resp0 rpBadYwin).2.1 ≠ [] :=
  ⟨by decide, by decide, by decide, by decide⟩

/-- Witness for the amended C2: a non-numeric `rmin` is rejected with no
fetch, and the defaulted parameters have `pages` within [1, 3]. -/
theorem nonnumeric_params_rejected_before_fetch_witness :
    parseParams rpNonNum = none ∧
    api_recommendations log1p0 db0 none resp0 rpNonNum =
      (.badRequest "Invalid parameters", [], db0) ∧
    (1 ≤ p0.pages ∧ p0.pages ≤ 3) :=
  ⟨by decide,
   (nonnumeric_params_rejected_before_fetch log1p0 db0 none resp0 rpNonNum).1 (by decide),
   (nonnumeric_params_rejected_before_fetch log1p0 db0 none resp0 rp0).2 p0 (by decide)⟩

/-- Counterexample for C3: two fetches of one request return different
records under the same external id 5; the pool ends up holding the second
record, so the later duplicate fetch is not a no-op and the first
occurrence does not win. -/
theorem duplicate_fetch_overwrites_pool_record :
    candA.tmdb_id = candB.tmdb_id ∧ candA ≠ candB ∧
    (buildPool p0 respDup [] [seedMovie]).1 = [("5", candB)] ∧
    poolFind (buildPool p0 respDup [] [seedMovie]).1 "5" ≠ some candA :=
  ⟨by decide, by decide, by decide, by decide⟩

/-- Witness for the amended C3 at the duplicate-record scenario. -/
theorem pool_unique_keys_last_write_wins_witness :
    ((buildPool p0 respDup [] [seedMovie]).1.map Prod.fst).Nodup ∧
    poolFind (dictInsert [("5", candA)] "5" candB) "5" = some candB ∧
    (dictInsert [("5", candA)] "5" candB).map Prod.fst =
      [("5", candA)].map Prod.fst :=
  ⟨(pool_unique_keys_last_write_wins p0 respDup [] [seedMovie]).1,
   (pool_unique_keys_last_write_wins p0 respDup [] [seedMovie]).2.1
     [("5", candA)] "5" candB,
   (pool_unique_keys_last_write_wins p0 respDup [] [seedMovie]).2.2
     [("5", candA)] "5" candB (by decide)⟩

/-- Witness for C4: external id 42 is in the user's catalog; the client
offered it (`cand42`) but the returned candidate's id is outside the
catalog. -/
theorem catalog_members_never_recommended_witness :
    "42" ∈ haveTmdb db4 none ∧ cand42.tmdb_id = "42" ∧
    cand1.tmdb_id ∉ haveTmdb db4 none :=
  ⟨by decide, by decide,
   (catalog_members_never_recommended log1p0 db4 none resp4 rp0 p0
      ["Alien"] [cand1] trace0 db4 (by decide)).2 cand1 (by decide)⟩

/-- Witness for C5 at a scenario whose client offers a same-signature
duplicate (`candDup`, skipped) between two accepted candidates. -/
theorem consecutive_results_differ_in_signature_witness :
    topSig candOther ≠ topSig cand1 ∧
    List.Chain' (fun a b => topSig a ≠ topSig b) [candOther, cand1] :=
  ⟨by decide,
   consecutive_results_differ_in_signature log1p0 db0 none resp5 rp0 p0
     ["Alien"] [candOther, cand1] trace0 db0 (by decide)⟩

/-- Witness for C6: a client whose page-2 fetch raises yields exactly the
response of the client whose page-2 fetch returns nothing. -/
theorem fetch_failures_equivalent_to_empty_results_witness :
    api_recommendations log1p0 db0 none respFail rp0 =
      api_recommendations log1p0 db0 none respEmpty rp0 :=
  fetch_failures_equivalent_to_empty_results log1p0 db0 none respFail respEmpty rp0
    (fun i pg => by
      by_cases h : pg = 2
      · simp [respFail, respEmpty, h, fetchRecover]
      · simp [respFail, respEmpty, h, fetchRecover])

/-- Witness for C7 at the three-candidate scenario. -/
theorem results_length_at_most_twenty_witness :
    ([candOther, cand1] : List Candidate).length ≤ 20 :=
  results_length_at_most_twenty log1p0 db0 none resp5 rp0 p0
    ["Alien"] [candOther, cand1] trace0 db0 (by decide)

/-- Witness for C8: the equality of two identical concrete calls. -/
theorem identical_inputs_identical_results_witness :
    api_recommendations log1p0 db0 none resp0 rp0 =
      api_recommendations log1p0 db0 none resp0 rp0 :=
  identical_inputs_identical_results log1p0 db0 db0 none none resp0 resp0 rp0 rp0
    rfl rfl (fun _ _ => rfl) rfl

/-- Witness for C10: the genreless seed `bareMovie` (index 1 of `db10`)
has no trace entry, and its concrete contribution omits only the genre
term. -/
theorem genreless_seed_no_fetch_but_scores_witness :
    db10.get? 1 = some bareMovie ∧ bareMovie.genres = [] ∧
    (1, fc1) ∉ (buildPool p0 resp0 [] db10).2 ∧
    seedContribution log1p0 p0 500 bareMovie (some 2001) [878] 8 500 =
      seedWeight p0.rmin bareMovie.personal_rating *
        (0.20 * time_score p0.ywin (seedYearOf bareMovie.year) (some 2001) +
         0.20 * rating_score 8 + 0.05 * pop_score log1p0 500 500) :=
  ⟨rfl, rfl,
   (genreless_seed_no_fetch_but_scores log1p0 p0 resp0 [] db10 bareMovie 1
      rfl rfl).1 fc1,
   (genreless_seed_no_fetch_but_scores log1p0 p0 resp0 [] db10 bareMovie 1
      rfl rfl).2 500 (some 2001) [878] 8 500⟩

end
